import Mathlib

/-!
Verification of the drought-monitoring dashboard's aggregation and lookup
routines, shallowly embedded from the JavaScript sources (`map.js`,
`prediction.js`).  JavaScript numbers are modelled as rationals, JavaScript
objects with possibly-missing fields as structures of `Option`s, and
JavaScript object/`Map`/`Set` containers as association lists respecting
insertion order.
-/

/-- Association-list lookup, modelling JavaScript object key access
(`obj[key]`): the first binding of the key wins, absence is `none`. -/
def assocFind {α : Type} (k : String) : List (String × α) → Option α
  | [] => none
  | (k2, v) :: rest => if k2 = k then some v else assocFind k rest

/-- `DROUGHT_COLORS` table from `map.js`: category name to display color,
in source order. -/
def DROUGHT_COLORS : List (String × String) :=
  [("Exceptional Drought", "#730000"),
   ("Extreme Drought", "#E60000"),
   ("Severe Drought", "#FFAA00"),
   ("Moderate Drought", "#FCD37F"),
   ("Slightly Dry", "#FFFF00"),
   ("Near Normal", "#FFFFFF"),
   ("Slightly Wet", "#A6F28F"),
   ("Moderate Wet", "#00AAFF"),
   ("No Drought", "#4CAF50"),
   ("Mild Drought", "#FFEB3B")]

/-- `STATE_COORDINATES` table from `map.js`: state name to
(latitude, longitude). -/
def STATE_COORDINATES : List (String × (ℚ × ℚ)) :=
  [("Andhra Pradesh", (15.9129, 79.7400)),
   ("Arunachal Pradesh", (28.2180, 94.7278)),
   ("Assam", (26.2006, 92.9376)),
   ("Bihar", (25.0961, 85.3131)),
   ("Chhattisgarh", (21.2787, 81.8661)),
   ("Goa", (15.2993, 74.1240)),
   ("Gujarat", (22.2587, 71.1924)),
   ("Haryana", (29.0588, 76.0856)),
   ("Himachal Pradesh", (31.1048, 77.1734)),
   ("Jharkhand", (23.6102, 85.2799)),
   ("Karnataka", (15.3173, 75.7139)),
   ("Kerala", (10.8505, 76.2711)),
   ("Madhya Pradesh", (22.9734, 78.6569)),
   ("Maharashtra", (19.7515, 75.7139)),
   ("Manipur", (24.6637, 93.9063)),
   ("Meghalaya", (25.4670, 91.3662)),
   ("Mizoram", (23.1645, 92.9376)),
   ("Nagaland", (26.1584, 94.5624)),
   ("Odisha", (20.9517, 85.0985)),
   ("Punjab", (31.1471, 75.3412)),
   ("Rajasthan", (27.0238, 74.2179)),
   ("Sikkim", (27.5330, 88.5122)),
   ("Tamil Nadu", (11.1271, 78.6569)),
   ("Telangana", (18.1124, 79.0193)),
   ("Tripura", (23.9408, 91.9882)),
   ("Uttar Pradesh", (26.8467, 80.9462)),
   ("Uttarakhand", (30.0668, 79.0193)),
   ("West Bengal", (22.9868, 87.8550)),
   ("Andaman and Nicobar Islands", (11.7401, 92.6586)),
   ("Chandigarh", (30.7333, 76.7794)),
   ("Dadra and Nagar Haveli and Daman and Diu", (20.4283, 72.8397)),
   ("Delhi", (28.7041, 77.1025)),
   ("Jammu and Kashmir", (33.7782, 76.5762)),
   ("Ladakh", (34.1526, 77.5771)),
   ("Lakshadweep", (10.5667, 72.6417)),
   ("Puducherry", (11.9416, 79.8083))]

/-- `severityToCategory` from `map.js`: the relaxed threshold classifier. -/
def severityToCategory (severity : ℚ) : String :=
  if severity ≤ 0.8 then "No Drought"
  else if severity ≤ 1.8 then "Slightly Dry"
  else if severity ≤ 2.8 then "Moderate Drought"
  else if severity ≤ 3.8 then "Severe Drought"
  else "Extreme Drought"

/-- A prediction record as consumed by `map.js` (fields `state`, `year`,
`month`, `drought_severity` read directly, lowercase spelling). -/
structure PredictionRecord where
  state : String
  year : Int
  month : Int
  drought_severity : ℚ
deriving DecidableEq

/-- The aggregation result assembled inside `showStateMarker`: median
severity, its category, the display color, and the post-filter sample
count rendered in the popup. -/
structure AggregationResult where
  medianSeverity : ℚ
  category : String
  color : String
  sampleCount : Nat
deriving DecidableEq

/-- The three control-flow outcomes of `showStateMarker`: the empty-filter
coordinate-only fallback (recording whether the view was recentered), the
missing-coordinate early return after statistics were computed, and the
drawn marker. -/
inductive MarkerOutcome where
  | fallback (centered : Bool)
  | noCenter (res : AggregationResult)
  | marker (res : AggregationResult)
deriving DecidableEq

/-- The filter step of `showStateMarker`: records whose `state`, `year`
and `month` all match the selection exactly. -/
def filterRecords (rs : List PredictionRecord) (state : String)
    (year month : Int) : List PredictionRecord :=
  rs.filter fun p => p.state == state && p.year == year && p.month == month

/-- The median computation of `showStateMarker`, applied to the
already-sorted severity list: middle element when the length is odd,
average of the two middle elements when even. -/
def middleOfSorted (severities : List ℚ) : ℚ :=
  let mid := severities.length / 2
  if severities.length % 2 = 0 then
    (severities.getD (mid - 1) 0 + severities.getD mid 0) / 2
  else severities.getD mid 0

/-- The statistics block of `showStateMarker` applied to the filtered
records: sort the severities ascending, take the median, categorize it,
look its color up (with the `#808080` default), and keep the sample
count. -/
def aggregationOf (statePredictions : List PredictionRecord) :
    AggregationResult :=
  let severities :=
    List.insertionSort (· ≤ ·) (statePredictions.map (·.drought_severity))
  let avgSeverity := middleOfSorted severities
  let category := severityToCategory avgSeverity
  let color := (assocFind category DROUGHT_COLORS).getD "#808080"
  ⟨avgSeverity, category, color, statePredictions.length⟩

/-- `showStateMarker` from `map.js`, as a pure function from the loaded
records and the selection to the marker outcome: filter; on an empty
filter recenter only; otherwise aggregate and draw the marker when the
state has a coordinate, or return after the statistics when it has
none. -/
def showStateMarker (rs : List PredictionRecord) (state : String)
    (year month : Int) : MarkerOutcome :=
  let statePredictions := filterRecords rs state year month
  if statePredictions.length = 0 then
    .fallback (assocFind state STATE_COORDINATES).isSome
  else
    match assocFind state STATE_COORDINATES with
    | none => .noCenter (aggregationOf statePredictions)
    | some _ => .marker (aggregationOf statePredictions)

/-- The classifier as the spec's sentence describes it, interval by
interval, for comparison with the source's `severityToCategory`. -/
def categoryOfSpecIntervals (s : ℚ) : String :=
  if s ≤ 0.8 then "No Drought"
  else if 0.8 < s ∧ s ≤ 1.8 then "Slightly Dry"
  else if 1.8 < s ∧ s ≤ 2.8 then "Moderate Drought"
  else if 2.8 < s ∧ s ≤ 3.8 then "Severe Drought"
  else "Extreme Drought"

/-- A raw dataset record as read by `prediction.js`: every field may be
absent, and the legacy capitalized spellings coexist with the lowercase
ones. -/
structure RawRecord where
  state : Option String := none
  State : Option String := none
  district : Option String := none
  District : Option String := none
  month : Option Int := none
  Month : Option Int := none
  year : Option Int := none
  Year : Option Int := none
  drought_category : Option String := none
  DroughtCategory : Option String := none
  drought_severity : Option ℚ := none
  Severity : Option ℚ := none
  rainfall_prediction : Option ℚ := none
  Rainfall : Option ℚ := none
  temperature_avg : Option ℚ := none
  Temperature : Option ℚ := none
  confidence : Option ℚ := none
  Confidence : Option ℚ := none
deriving DecidableEq

/-- JavaScript `a || b` over two possibly-absent string fields:
`undefined` and the empty string are falsy. -/
def jsOr (a b : Option String) : Option String :=
  match a with
  | some s => if s = "" then b else some s
  | none => b

/-- JavaScript truthy-or chain `a || d` for a possibly-absent string with
a default. -/
def jsStrOr (a : Option String) (d : String) : String :=
  match a with
  | some s => if s = "" then d else s
  | none => d

/-- JavaScript truthy-or chain `a || d` for a possibly-absent number with
a default: `undefined` and `0` are falsy. -/
def jsNumOr (a : Option ℚ) (d : ℚ) : ℚ :=
  match a with
  | some q => if q = 0 then d else q
  | none => d

/-- The matching predicate of `getPrediction` in `prediction.js`: for each
of the four fields, the record matches if either the lowercase or the
capitalized spelling equals the selected value. -/
def matchesSelection (state district : String) (month year : Int)
    (r : RawRecord) : Bool :=
  (r.state == some state || r.State == some state) &&
  (r.district == some district || r.District == some district) &&
  (r.month == some month || r.Month == some month) &&
  (r.year == some year || r.Year == some year)

/-- The record search of `getPrediction`: the first record matching the
selection, if any. -/
def findPrediction (records : List RawRecord) (state district : String)
    (month year : Int) : Option RawRecord :=
  records.find? (matchesSelection state district month year)

/-- Field lookup as the claim words it: fall back across both spellings,
preferring the lowercase form whenever it is present.  Stated here only to
compare with the source's behaviour. -/
def specField {α : Type} (lo hi : Option α) : Option α :=
  match lo with
  | some v => some v
  | none => hi

/-- The matching predicate as the claim words it: each field is read by
lowercase-preferring fallback and then compared with the selected
value.  Stated here only to compare with the source's `matchesSelection`. -/
def matchesSelectionSpec (state district : String) (month year : Int)
    (r : RawRecord) : Bool :=
  specField r.state r.State == some state &&
  specField r.district r.District == some district &&
  specField r.month r.Month == some month &&
  specField r.year r.Year == some year

/-- The record search under the claim's lowercase-preferring reading. -/
def findPredictionSpec (records : List RawRecord) (state district : String)
    (month year : Int) : Option RawRecord :=
  records.find? (matchesSelectionSpec state district month year)

/-- Append a district to a district list unless already present, modelling
`if (!list.includes(d)) list.push(d)`. -/
def pushUnique (ds : List String) (d : String) : List String :=
  if d ∈ ds then ds else ds ++ [d]

/-- Insert one (state, district) observation into the state-district
association list, modelling the JavaScript object update inside
`populateStateDistrictMap`: a fresh key is appended at the end, an
existing key keeps its position and its list grows at the end unless the
district is already present. -/
def mapInsertDistrict (st d : String) :
    List (String × List String) → List (String × List String)
  | [] => [(st, [d])]
  | (k, v) :: rest =>
    if k = st then (k, pushUnique v d) :: rest
    else (k, v) :: mapInsertDistrict st d rest

/-- One iteration of the `predictionData.forEach` loop in
`populateStateDistrictMap`: read both spellings with truthy fallback and
insert only when both state and district are truthy. -/
def addRecord (m : List (String × List String)) (r : RawRecord) :
    List (String × List String) :=
  match jsOr r.state r.State, jsOr r.district r.District with
  | some s, some d => if s ≠ "" ∧ d ≠ "" then mapInsertDistrict s d m else m
  | _, _ => m

/-- `populateStateDistrictMap` from `prediction.js`, started from the
empty map (the loaded-data path): fold every record in, then sort each
state's district list. -/
def populateStateDistrictMap (records : List RawRecord) :
    List (String × List String) :=
  (records.foldl addRecord []).map fun kv =>
    (kv.1, List.insertionSort (· ≤ ·) kv.2)

/-- The stream of districts the `populateStateDistrictMap` loop observes
for state `s`, in record order: one entry per record whose truthy-read
state is `s` and whose truthy-read district is present. -/
def observedDistricts (records : List RawRecord) (s : String) :
    List String :=
  records.filterMap fun r =>
    match jsOr r.state r.State, jsOr r.district r.District with
    | some s2, some d => if s2 = s ∧ s2 ≠ "" ∧ d ≠ "" then some d else none
    | _, _ => none

/-- Replay a district stream onto one map entry: `none` stands for an
absent key, and each district is appended unless present, as the loop
body does. -/
def extendEntry (cur : Option (List String)) (l : List String) :
    Option (List String) :=
  l.foldl
    (fun acc d =>
      match acc with
      | none => some [d]
      | some ds => some (pushUnique ds d)) cur

/-- The fixed category list of `generateSamplePrediction`. -/
def droughtCategories : List String :=
  ["No Drought", "Mild Drought", "Moderate Drought", "Severe Drought",
   "Extreme Drought"]

/-- `generateSamplePrediction` from `prediction.js`, with the five
`Math.random()` draws made explicit parameters: the synthesized record
has only the five value fields, and no marker of any kind. -/
def generateSamplePrediction (r1 r2 r3 r4 r5 : ℚ) : RawRecord :=
  { drought_category := droughtCategories.get? (Int.toNat ⌊r1 * 5⌋),
    drought_severity := some (r2 * 5),
    rainfall_prediction := some (r3 * 200),
    temperature_avg := some (20 + r4 * 15),
    confidence := some (0.7 + r5 * 0.25) }

/-- The result record `getPrediction` passes to `displayPrediction`: the
found record, or the synthesized placeholder when the search fails. -/
def getPredictionRecord (records : List RawRecord) (state district : String)
    (month year : Int) (r1 r2 r3 r4 r5 : ℚ) : RawRecord :=
  match findPrediction records state district month year with
  | some p => p
  | none => generateSamplePrediction r1 r2 r3 r4 r5

/-- Does the character list start with the pattern? -/
def charsStartWith : List Char → List Char → Bool
  | _, [] => true
  | [], _ :: _ => false
  | c :: s, c2 :: p => c == c2 && charsStartWith s p

/-- Does the character list contain the pattern as a contiguous run? -/
def charsContain : List Char → List Char → Bool
  | [], p => charsStartWith [] p
  | c :: t, p => charsStartWith (c :: t) p || charsContain t p

/-- JavaScript `String.prototype.includes`. -/
def strIncludes (s p : String) : Bool := charsContain s.toList p.toList

/-- The values `displayPrediction` renders for a record, after all the
truthy-or fallbacks and the severity-class computation. -/
structure DisplayValues where
  category : String
  severity : ℚ
  rainfall : ℚ
  temperature : ℚ
  confidence : ℚ
  severityClass : String
deriving DecidableEq

/-- The extraction part of `displayPrediction` in `prediction.js`,
applied uniformly to whatever record reaches it. -/
def displayValues (p : RawRecord) : DisplayValues :=
  let category := jsStrOr p.drought_category (jsStrOr p.DroughtCategory "Unknown")
  let severity := jsNumOr p.drought_severity (jsNumOr p.Severity 0)
  let rainfall := jsNumOr p.rainfall_prediction (jsNumOr p.Rainfall 0)
  let temperature := jsNumOr p.temperature_avg (jsNumOr p.Temperature 0)
  let confidence := jsNumOr p.confidence (jsNumOr p.Confidence 0)
  let severityClass :=
    if strIncludes category "Severe" || strIncludes category "Extreme" then
      "severity-severe"
    else if strIncludes category "Moderate" || strIncludes category "Mild" then
      "severity-moderate"
    else "severity-normal"
  ⟨category, severity, rainfall, temperature, confidence, severityClass⟩

/-- Insertion-order set add, modelling `Set.prototype.add`. -/
def insertUnique {α : Type} [DecidableEq α] (l : List α) (a : α) : List α :=
  if a ∈ l then l else l ++ [a]

/-- Insertion-order collection of the distinct values produced by `f`
across a sequence, modelling iteration into a JavaScript `Set`. -/
def collectUnique {α β : Type} [DecidableEq α] (f : β → Option α)
    (l : List β) : List α :=
  l.foldl
    (fun acc b =>
      match f b with
      | some a => insertUnique acc a
      | none => acc) []

/-- `statesWithData` in `loadMapPredictions`: the distinct `state` values
in first-appearance order. -/
def statesWithData (rs : List PredictionRecord) : List String :=
  collectUnique (fun p => some p.state) rs

/-- The state dropdown contents: `statesWithData.sort()`. -/
def sortedStates (rs : List PredictionRecord) : List String :=
  List.insertionSort (· ≤ ·) (statesWithData rs)

/-- The `ymSet` of `loadMapPredictions`: distinct (year, month) pairs of
records whose year lies in 2024–2026, in first-appearance order. -/
def ymList (rs : List PredictionRecord) : List (Int × Int) :=
  collectUnique
    (fun p =>
      if 2024 ≤ p.year ∧ p.year ≤ 2026 then some (p.year, p.month)
      else none) rs

/-- The sort key of the date-dropdown comparator: `year*12 + month`. -/
def periodKey (p : Int × Int) : Int := p.1 * 12 + p.2

/-- The ordering the date-dropdown comparator induces. -/
def periodLE (a b : Int × Int) : Prop := periodKey a ≤ periodKey b

instance : DecidableRel periodLE :=
  fun a b => (inferInstance : Decidable (periodKey a ≤ periodKey b))

instance : IsTotal (Int × Int) periodLE := ⟨fun x y => le_total (periodKey x) (periodKey y)⟩

instance : IsTrans (Int × Int) periodLE := ⟨fun _ _ _ h1 h2 => le_trans h1 h2⟩

/-- The strict key order on periods. -/
def periodLT (a b : Int × Int) : Prop := periodKey a < periodKey b

instance : IsAntisymm (Int × Int) periodLT :=
  ⟨fun _ _ h1 h2 => absurd (lt_trans h1 h2) (lt_irrefl _)⟩

/-- The sorted date-dropdown contents of `loadMapPredictions`. -/
def mapPeriods (rs : List PredictionRecord) : List (Int × Int) :=
  List.insertionSort periodLE (ymList rs)

/-- The key list of the state-district object, modelling `Object.keys`. -/
def mapKeys (m : List (String × List String)) : List String :=
  m.map (·.1)

/-- The sorted key list, modelling `Object.keys(stateDistrictMap).sort()`
in `populateStates`. -/
def sortedMapKeys (m : List (String × List String)) : List String :=
  List.insertionSort (· ≤ ·) (mapKeys m)


theorem mem_pushUnique (ds : List String) (d x : String) :
    x ∈ pushUnique ds d ↔ x ∈ ds ∨ x = d := by
  by_cases h : d ∈ ds
  · simp only [pushUnique, if_pos h]
    constructor
    · exact Or.inl
    · rintro (hx | rfl)
      · exact hx
      · exact h
  · simp [pushUnique, if_neg h]

theorem nodup_pushUnique (ds : List String) (d : String) (h : ds.Nodup) :
    (pushUnique ds d).Nodup := by
  by_cases hd : d ∈ ds
  · simpa [pushUnique, hd] using h
  · simp [pushUnique, hd, List.nodup_append, h]

theorem mem_foldl_pushUnique (l : List String) (ds : List String)
    (x : String) : x ∈ l.foldl pushUnique ds ↔ x ∈ ds ∨ x ∈ l := by
  induction l generalizing ds with
  | nil => simp
  | cons d l ih =>
    rw [List.foldl_cons, ih]
    simp [mem_pushUnique, List.mem_cons, or_assoc, eq_comm]

theorem nodup_foldl_pushUnique (l : List String) (ds : List String)
    (h : ds.Nodup) : (l.foldl pushUnique ds).Nodup := by
  induction l generalizing ds with
  | nil => exact h
  | cons d l ih =>
    rw [List.foldl_cons]
    exact ih _ (nodup_pushUnique _ _ h)

theorem mem_insertUnique {α : Type} [DecidableEq α] (l : List α) (a x : α) :
    x ∈ insertUnique l a ↔ x ∈ l ∨ x = a := by
  by_cases h : a ∈ l
  · simp only [insertUnique, if_pos h]
    constructor
    · exact Or.inl
    · rintro (hx | rfl)
      · exact hx
      · exact h
  · simp [insertUnique, if_neg h]

theorem nodup_insertUnique {α : Type} [DecidableEq α] (l : List α) (a : α)
    (h : l.Nodup) : (insertUnique l a).Nodup := by
  by_cases ha : a ∈ l
  · simpa [insertUnique, ha] using h
  · simp [insertUnique, ha, List.nodup_append, h]

theorem mem_collectUnique_foldl {α β : Type} [DecidableEq α]
    (f : β → Option α) (l : List β) (acc : List α) (x : α) :
    x ∈ l.foldl
        (fun acc2 b =>
          match f b with
          | some a => insertUnique acc2 a
          | none => acc2) acc ↔
      x ∈ acc ∨ ∃ b ∈ l, f b = some x := by
  induction l generalizing acc with
  | nil => simp
  | cons b l ih =>
    rw [List.foldl_cons, ih]
    rcases hb : f b with _ | a
    · simp [hb]
    · constructor
      · rintro (h | ⟨b2, hb2, hf⟩)
        · rcases (mem_insertUnique acc a x).mp h with h2 | h2
          · exact Or.inl h2
          · exact Or.inr ⟨b, List.mem_cons_self b l, by rw [hb, h2]⟩
        · exact Or.inr ⟨b2, List.mem_cons_of_mem _ hb2, hf⟩
      · rintro (h | ⟨b2, hb2, hf⟩)
        · exact Or.inl ((mem_insertUnique acc a x).mpr (Or.inl h))
        · rcases List.mem_cons.mp hb2 with rfl | h2
          · rw [hb] at hf
            injection hf with hax
            exact Or.inl ((mem_insertUnique acc a x).mpr (Or.inr hax.symm))
          · exact Or.inr ⟨b2, h2, hf⟩

theorem nodup_collectUnique_foldl {α β : Type} [DecidableEq α]
    (f : β → Option α) (l : List β) (acc : List α) (h : acc.Nodup) :
    (l.foldl
        (fun acc2 b =>
          match f b with
          | some a => insertUnique acc2 a
          | none => acc2) acc).Nodup := by
  induction l generalizing acc with
  | nil => exact h
  | cons b l ih =>
    rw [List.foldl_cons]
    rcases hb : f b with _ | a <;> simp only [hb]
    · exact ih _ h
    · exact ih _ (nodup_insertUnique _ _ h)

theorem mem_collectUnique {α β : Type} [DecidableEq α] (f : β → Option α)
    (l : List β) (x : α) :
    x ∈ collectUnique f l ↔ ∃ b ∈ l, f b = some x := by
  unfold collectUnique
  rw [mem_collectUnique_foldl]
  simp

theorem nodup_collectUnique {α β : Type} [DecidableEq α] (f : β → Option α)
    (l : List β) : (collectUnique f l).Nodup :=
  nodup_collectUnique_foldl f l [] List.nodup_nil

theorem assocFind_mapInsertDistrict_self (st d : String)
    (m : List (String × List String)) :
    assocFind st (mapInsertDistrict st d m) =
      some
        (match assocFind st m with
          | none => [d]
          | some ds => pushUnique ds d) := by
  induction m with
  | nil => simp [mapInsertDistrict, assocFind]
  | cons kv rest ih =>
    obtain ⟨k, v⟩ := kv
    by_cases hk : k = st
    · subst hk
      simp [mapInsertDistrict, assocFind]
    · simp [mapInsertDistrict, assocFind, hk, ih]

theorem assocFind_mapInsertDistrict_ne (st d s : String)
    (m : List (String × List String)) (h : s ≠ st) :
    assocFind s (mapInsertDistrict st d m) = assocFind s m := by
  induction m with
  | nil => simp [mapInsertDistrict, assocFind, Ne.symm h]
  | cons kv rest ih =>
    obtain ⟨k, v⟩ := kv
    by_cases hk : k = st
    · subst hk
      simp [mapInsertDistrict, assocFind, Ne.symm h]
    · by_cases hks : k = s
      · subst hks
        simp [mapInsertDistrict, assocFind, hk]
      · simp [mapInsertDistrict, assocFind, hk, hks, ih]

theorem extendEntry_some_eq (ds l : List String) :
    extendEntry (some ds) l = some (l.foldl pushUnique ds) := by
  induction l generalizing ds with
  | nil => rfl
  | cons d l ih =>
    show extendEntry (some (pushUnique ds d)) l = _
    rw [ih, List.foldl_cons]

theorem assocFind_foldl_addRecord (records : List RawRecord)
    (m : List (String × List String)) (s : String) :
    assocFind s (records.foldl addRecord m) =
      extendEntry (assocFind s m) (observedDistricts records s) := by
  induction records generalizing m with
  | nil => rfl
  | cons r rest ih =>
    rw [List.foldl_cons, ih]
    rcases h1 : jsOr r.state r.State with _ | s2
    · have hadd : addRecord m r = m := by simp [addRecord, h1]
      have hobs : observedDistricts (r :: rest) s = observedDistricts rest s := by
        simp [observedDistricts, List.filterMap_cons, h1]
      rw [hadd, hobs]
    · rcases h2 : jsOr r.district r.District with _ | d
      · have hadd : addRecord m r = m := by simp [addRecord, h1, h2]
        have hobs : observedDistricts (r :: rest) s =
            observedDistricts rest s := by
          simp [observedDistricts, List.filterMap_cons, h1, h2]
        rw [hadd, hobs]
      · by_cases hcond : s2 ≠ "" ∧ d ≠ ""
        · by_cases hss : s2 = s
          · subst hss
            have hadd : addRecord m r = mapInsertDistrict s2 d m := by
              simp [addRecord, h1, h2, hcond.1, hcond.2]
            have hobs : observedDistricts (r :: rest) s2 =
                d :: observedDistricts rest s2 := by
              simp [observedDistricts, List.filterMap_cons, h1, h2,
                hcond.1, hcond.2]
            rw [hadd, hobs, assocFind_mapInsertDistrict_self]
            rcases assocFind s2 m with _ | ds
            · rfl
            · rfl
          · have hadd : addRecord m r = mapInsertDistrict s2 d m := by
              simp [addRecord, h1, h2, hcond.1, hcond.2]
            have hobs : observedDistricts (r :: rest) s =
                observedDistricts rest s := by
              simp only [observedDistricts, List.filterMap_cons, h1, h2]
              rw [if_neg (fun hc => hss hc.1)]
            rw [hadd, hobs,
              assocFind_mapInsertDistrict_ne _ _ _ _ (fun he => hss he.symm)]
        · have hadd : addRecord m r = m := by
            simp only [addRecord, h1, h2]
            rw [if_neg hcond]
          have hobs : observedDistricts (r :: rest) s =
              observedDistricts rest s := by
            simp only [observedDistricts, List.filterMap_cons, h1, h2]
            rw [if_neg (fun hc => hcond ⟨hc.2.1, hc.2.2⟩)]
          rw [hadd, hobs]

theorem assocFind_map_sortEntry (m : List (String × List String))
    (s : String) :
    assocFind s (m.map fun kv => (kv.1, List.insertionSort (· ≤ ·) kv.2)) =
      (assocFind s m).map (List.insertionSort (· ≤ ·)) := by
  induction m with
  | nil => rfl
  | cons kv rest ih =>
    obtain ⟨k, v⟩ := kv
    by_cases hk : k = s
    · subst hk
      simp [assocFind]
    · simp only [List.map_cons, assocFind, if_neg hk]
      exact ih

theorem mapKeys_mapInsertDistrict (st d : String)
    (m : List (String × List String)) :
    mapKeys (mapInsertDistrict st d m) = insertUnique (mapKeys m) st := by
  induction m with
  | nil => simp [mapInsertDistrict, mapKeys, insertUnique]
  | cons kv rest ih =>
    obtain ⟨k, v⟩ := kv
    by_cases hk : k = st
    · subst hk
      simp [mapInsertDistrict, mapKeys, insertUnique]
    · have h1 : mapInsertDistrict st d ((k, v) :: rest) =
          (k, v) :: mapInsertDistrict st d rest := by
        simp [mapInsertDistrict, hk]
      rw [h1]
      have h2 : mapKeys ((k, v) :: mapInsertDistrict st d rest) =
          k :: mapKeys (mapInsertDistrict st d rest) := rfl
      rw [h2, ih]
      have h3 : mapKeys ((k, v) :: rest) = k :: mapKeys rest := rfl
      rw [h3]
      by_cases hst : st ∈ mapKeys rest
      · simp [insertUnique, hst, List.mem_cons, Ne.symm hk]
      · simp [insertUnique, hst, List.mem_cons, Ne.symm hk]

theorem nodup_mapKeys_addRecord (m : List (String × List String))
    (r : RawRecord) (h : (mapKeys m).Nodup) :
    (mapKeys (addRecord m r)).Nodup := by
  have h2 : ∀ s2 d : String,
      (mapKeys (if s2 ≠ "" ∧ d ≠ "" then mapInsertDistrict s2 d m
        else m)).Nodup := by
    intro s2 d
    by_cases hc : s2 ≠ "" ∧ d ≠ ""
    · rw [if_pos hc, mapKeys_mapInsertDistrict]
      exact nodup_insertUnique _ _ h
    · rw [if_neg hc]
      exact h
  unfold addRecord
  rcases jsOr r.state r.State with _ | s2
  · exact h
  · rcases jsOr r.district r.District with _ | d
    · exact h
    · exact h2 s2 d

theorem nodup_mapKeys_foldl (records : List RawRecord)
    (m : List (String × List String)) (h : (mapKeys m).Nodup) :
    (mapKeys (records.foldl addRecord m)).Nodup := by
  induction records generalizing m with
  | nil => exact h
  | cons r rest ih =>
    rw [List.foldl_cons]
    exact ih _ (nodup_mapKeys_addRecord _ _ h)

theorem mem_mapKeys_iff_assocFind (s : String)
    (m : List (String × List String)) :
    s ∈ mapKeys m ↔ assocFind s m ≠ none := by
  induction m with
  | nil => simp [mapKeys, assocFind]
  | cons kv rest ih =>
    obtain ⟨k, v⟩ := kv
    have h3 : mapKeys ((k, v) :: rest) = k :: mapKeys rest := rfl
    rw [h3]
    by_cases hk : k = s
    · subst hk
      simp [assocFind, List.mem_cons]
    · simp only [List.mem_cons, assocFind, if_neg hk, ih]
      simp [Ne.symm hk]

theorem mapKeys_map_sortEntry (m : List (String × List String)) :
    mapKeys (m.map fun kv => (kv.1, List.insertionSort (· ≤ ·) kv.2)) =
      mapKeys m := by
  induction m with
  | nil => rfl
  | cons kv rest ih => simp [mapKeys, ih]

/-- C1 (counterexample): on the two Bihar records with severities 2.0 and
4.0, the code computes median 3.0 but category "Severe Drought" with color
"#FFAA00" (3.0 exceeds the 2.8 bound of "Moderate Drought"), so the marker
claimed by the spec, with category "Moderate Drought" and color "#FCD37F",
is not produced. -/
theorem claim_C1_counterexample :
    showStateMarker
        [⟨"Bihar", 2025, 3, 2⟩, ⟨"Bihar", 2025, 3, 4⟩] "Bihar" 2025 3 ≠
      .marker ⟨3, "Moderate Drought", "#FCD37F", 2⟩ := by
  have hf : filterRecords [⟨"Bihar", 2025, 3, 2⟩, ⟨"Bihar", 2025, 3, 4⟩]
      "Bihar" 2025 3 = [⟨"Bihar", 2025, 3, 2⟩, ⟨"Bihar", 2025, 3, 4⟩] := by
    decide
  have hcol : (assocFind "Severe Drought" DROUGHT_COLORS).getD "#808080" =
      "#FFAA00" := by decide
  rcases h : assocFind "Bihar" STATE_COORDINATES with _ | c
  · exact absurd h (by decide)
  · norm_num [showStateMarker, hf, h, aggregationOf, middleOfSorted,
      severityToCategory, hcol, List.insertionSort, List.orderedInsert]
    decide

/-- C1 (amended): for the input record sequence
`[{state:"Bihar",year:2025,month:3,drought_severity:2.0},
{state:"Bihar",year:2025,month:3,drought_severity:4.0}]`, aggregating for
state "Bihar", year 2025, month 3 yields median severity 3.0, category
"Severe Drought", display color "#FFAA00", and sampleCount 2. -/
theorem claim_C1 :
    showStateMarker
        [⟨"Bihar", 2025, 3, 2⟩, ⟨"Bihar", 2025, 3, 4⟩] "Bihar" 2025 3 =
      .marker ⟨3, "Severe Drought", "#FFAA00", 2⟩ := by
  have hf : filterRecords [⟨"Bihar", 2025, 3, 2⟩, ⟨"Bihar", 2025, 3, 4⟩]
      "Bihar" 2025 3 = [⟨"Bihar", 2025, 3, 2⟩, ⟨"Bihar", 2025, 3, 4⟩] := by
    decide
  have hcol : (assocFind "Severe Drought" DROUGHT_COLORS).getD "#808080" =
      "#FFAA00" := by decide
  rcases h : assocFind "Bihar" STATE_COORDINATES with _ | c
  · exact absurd h (by decide)
  · norm_num [showStateMarker, hf, h, aggregationOf, middleOfSorted,
      severityToCategory, hcol, List.insertionSort, List.orderedInsert]

/-- C2: severity-to-category classification is a total function of a single
rational, agreeing on every input with the spec's ascending
upper-bound-inclusive interval reading, and in particular 0.8 maps to
"No Drought", 0.80001 to "Slightly Dry", 3.8 to "Severe Drought", and
3.80001 to "Extreme Drought". -/
theorem claim_C2 :
    (∀ s : ℚ, severityToCategory s = categoryOfSpecIntervals s) ∧
    severityToCategory 0.8 = "No Drought" ∧
    severityToCategory 0.80001 = "Slightly Dry" ∧
    severityToCategory 3.8 = "Severe Drought" ∧
    severityToCategory 3.80001 = "Extreme Drought" := by
  refine ⟨fun s => ?_, ?_, ?_, ?_, ?_⟩
  · by_cases h1 : s ≤ 0.8
    · simp [severityToCategory, categoryOfSpecIntervals, h1]
    · by_cases h2 : s ≤ 1.8
      · simp [severityToCategory, categoryOfSpecIntervals, h1, h2,
          not_le.mp h1]
      · by_cases h3 : s ≤ 2.8
        · simp [severityToCategory, categoryOfSpecIntervals, h1, h2, h3,
            not_le.mp h2]
        · by_cases h4 : s ≤ 3.8
          · simp [severityToCategory, categoryOfSpecIntervals, h1, h2, h3,
              h4, not_le.mp h3]
          · simp [severityToCategory, categoryOfSpecIntervals, h1, h2, h3,
              h4]
  · norm_num [severityToCategory]
  · norm_num [severityToCategory]
  · norm_num [severityToCategory]
  · norm_num [severityToCategory]

/-- C10: for every rational severity, however far outside 0–5, the
classifier returns one of exactly five strings; each of the five is a key
of `DROUGHT_COLORS`; the "#808080" default in the marker-drawing color
lookup is therefore unreachable; and any severity at most 0.8, however
negative, is labeled "No Drought". -/
theorem claim_C10 :
    (∀ s : ℚ, severityToCategory s ∈
      (["No Drought", "Slightly Dry", "Moderate Drought", "Severe Drought",
        "Extreme Drought"] : List String)) ∧
    (∀ c ∈ (["No Drought", "Slightly Dry", "Moderate Drought",
        "Severe Drought", "Extreme Drought"] : List String),
      (assocFind c DROUGHT_COLORS).isSome) ∧
    (∀ s : ℚ,
      (assocFind (severityToCategory s) DROUGHT_COLORS).getD "#808080" ≠
        "#808080") ∧
    (∀ s : ℚ, s ≤ 0.8 → severityToCategory s = "No Drought") := by
  refine ⟨fun s => ?_, ?_, fun s => ?_, fun s h => ?_⟩
  · unfold severityToCategory
    split_ifs <;> simp
  · decide
  · unfold severityToCategory
    split_ifs <;> decide
  · simp [severityToCategory, h]

/-- C3: for every selection whose filtered record set is non-empty, the
aggregated severity is the median of the severity values: the middle
element of any ascending sort of them when the count is odd, the average
of the two middle elements when even; concretely, severities [1, 3, 5]
aggregate to 3 and [1, 2, 3, 4] to 2.5. -/
theorem claim_C3 :
    (∀ (rs : List PredictionRecord) (st : String) (y m : Int) (l : List ℚ),
      l.Perm ((filterRecords rs st y m).map (·.drought_severity)) →
      l.Sorted (· ≤ ·) →
      l ≠ [] →
      ∃ res : AggregationResult,
        (showStateMarker rs st y m = .noCenter res ∨
          showStateMarker rs st y m = .marker res) ∧
        res.medianSeverity =
          (if l.length % 2 = 1 then l.getD (l.length / 2) 0
            else
              (l.getD (l.length / 2 - 1) 0 + l.getD (l.length / 2) 0) / 2)) ∧
    showStateMarker
        [⟨"X", 2024, 1, 1⟩, ⟨"X", 2024, 1, 3⟩, ⟨"X", 2024, 1, 5⟩]
        "X" 2024 1 =
      .noCenter ⟨3, "Severe Drought", "#FFAA00", 3⟩ ∧
    showStateMarker
        [⟨"X", 2024, 1, 1⟩, ⟨"X", 2024, 1, 2⟩, ⟨"X", 2024, 1, 3⟩,
          ⟨"X", 2024, 1, 4⟩] "X" 2024 1 =
      .noCenter ⟨2.5, "Moderate Drought", "#FCD37F", 4⟩ := by
  refine ⟨fun rs st y m l hperm hsorted hne => ?_, ?_, ?_⟩
  · have hl : l = List.insertionSort (· ≤ ·)
        ((filterRecords rs st y m).map (·.drought_severity)) :=
      List.eq_of_perm_of_sorted
        (hperm.trans (List.perm_insertionSort _ _).symm) hsorted
        (List.sorted_insertionSort _ _)
    have hlen0 : ¬ (filterRecords rs st y m).length = 0 := by
      intro h0
      apply hne
      rw [← List.length_eq_zero, hperm.length_eq, List.length_map, h0]
    have hmed : middleOfSorted l =
        (if l.length % 2 = 1 then l.getD (l.length / 2) 0
          else (l.getD (l.length / 2 - 1) 0 + l.getD (l.length / 2) 0) / 2) := by
      rcases Nat.mod_two_eq_zero_or_one l.length with h | h <;>
        simp [middleOfSorted, h]
    refine ⟨aggregationOf (filterRecords rs st y m), ?_, ?_⟩
    · simp only [showStateMarker]
      rw [if_neg hlen0]
      rcases hc : assocFind st STATE_COORDINATES with _ | c
      · exact Or.inl rfl
      · exact Or.inr rfl
    · show middleOfSorted (List.insertionSort (· ≤ ·)
        ((filterRecords rs st y m).map (·.drought_severity))) = _
      rw [← hl]
      exact hmed
  · have hf : filterRecords
        [⟨"X", 2024, 1, 1⟩, ⟨"X", 2024, 1, 3⟩, ⟨"X", 2024, 1, 5⟩]
        "X" 2024 1 =
        [⟨"X", 2024, 1, 1⟩, ⟨"X", 2024, 1, 3⟩, ⟨"X", 2024, 1, 5⟩] := by
      decide
    have hcol : (assocFind "Severe Drought" DROUGHT_COLORS).getD "#808080" =
        "#FFAA00" := by decide
    have hc : assocFind "X" STATE_COORDINATES = none := by decide
    norm_num [showStateMarker, hf, hc, hcol, aggregationOf, middleOfSorted,
      severityToCategory, List.insertionSort, List.orderedInsert]
  · have hf : filterRecords
        [⟨"X", 2024, 1, 1⟩, ⟨"X", 2024, 1, 2⟩, ⟨"X", 2024, 1, 3⟩,
          ⟨"X", 2024, 1, 4⟩] "X" 2024 1 =
        [⟨"X", 2024, 1, 1⟩, ⟨"X", 2024, 1, 2⟩, ⟨"X", 2024, 1, 3⟩,
          ⟨"X", 2024, 1, 4⟩] := by decide
    have hcol : (assocFind "Moderate Drought" DROUGHT_COLORS).getD "#808080" =
        "#FCD37F" := by decide
    have hc : assocFind "X" STATE_COORDINATES = none := by decide
    norm_num [showStateMarker, hf, hc, hcol, aggregationOf, middleOfSorted,
      severityToCategory, List.insertionSort, List.orderedInsert]

/-- C3 witness: the median characterization of `claim_C3` instantiated for
one record with severity 1 and the sorted severity list [1]. -/
theorem claim_C3_witness :
    ∃ res : AggregationResult,
      (showStateMarker [⟨"X", 2024, 1, 1⟩] "X" 2024 1 = .noCenter res ∨
        showStateMarker [⟨"X", 2024, 1, 1⟩] "X" 2024 1 = .marker res) ∧
      res.medianSeverity =
        (if ([(1 : ℚ)]).length % 2 = 1 then
            ([(1 : ℚ)]).getD (([(1 : ℚ)]).length / 2) 0
          else
            (([(1 : ℚ)]).getD (([(1 : ℚ)]).length / 2 - 1) 0 +
              ([(1 : ℚ)]).getD (([(1 : ℚ)]).length / 2) 0) / 2) :=
  claim_C3.1 [⟨"X", 2024, 1, 1⟩] "X" 2024 1 [1]
    (by
      have h : (filterRecords [⟨"X", 2024, 1, 1⟩] "X" 2024 1).map
          (·.drought_severity) = [1] := by decide
      rw [h])
    (by simp) (by simp)

/-- C4: the aggregation filter is exact equality on state, year and month
(a Kerala 2024-5 record is never selected for 2024-6); whenever the filter
is empty, `showStateMarker` takes the coordinate-only fallback path, which
carries no aggregation result and hence no category, and the fallback path
occurs only when the post-filter sample count is zero. -/
theorem claim_C4 :
    (∀ (rs : List PredictionRecord) (st : String) (y m : Int)
        (r : PredictionRecord),
      r ∈ filterRecords rs st y m ↔
        r ∈ rs ∧ r.state = st ∧ r.year = y ∧ r.month = m) ∧
    filterRecords [⟨"Kerala", 2024, 5, 1⟩] "Kerala" 2024 6 = [] ∧
    (∀ (rs : List PredictionRecord) (st : String) (y m : Int),
      filterRecords rs st y m = [] →
      showStateMarker rs st y m =
        .fallback (assocFind st STATE_COORDINATES).isSome) ∧
    (∀ (rs : List PredictionRecord) (st : String) (y m : Int) (b : Bool),
      showStateMarker rs st y m = .fallback b →
      (filterRecords rs st y m).length = 0) := by
  refine ⟨fun rs st y m r => ?_, by decide, fun rs st y m h => ?_,
    fun rs st y m b h => ?_⟩
  · simp [filterRecords, List.mem_filter, and_assoc]
  · simp [showStateMarker, h]
  · by_contra hlen
    simp only [showStateMarker] at h
    rw [if_neg hlen] at h
    rcases hc : assocFind st STATE_COORDINATES with _ | c <;>
      rw [hc] at h <;> simp at h

/-- C4 witness: the fallback conjunct of `claim_C4` instantiated at a
query for which the single Kerala May record does not match (June). -/
theorem claim_C4_witness :
    showStateMarker [⟨"Kerala", 2024, 5, 1⟩] "Kerala" 2024 6 =
      .fallback (assocFind "Kerala" STATE_COORDINATES).isSome :=
  claim_C4.2.2.1 [⟨"Kerala", 2024, 5, 1⟩] "Kerala" 2024 6 (by decide)

/-- C5 (counterexample): a record carrying "A" in the lowercase state
field and "B" in the capitalized one is found by the source's lookup when
state "B" is selected, while the claimed lowercase-preferring field
lookup rejects it: the single-record lookup does not prefer the lowercase
spelling when both are present. -/
theorem claim_C5_counterexample :
    findPrediction
        [{ state := some "A", State := some "B", district := some "D",
           month := some 1, year := some 2024 }] "B" "D" 1 2024 =
      some { state := some "A", State := some "B", district := some "D",
             month := some 1, year := some 2024 } ∧
    findPredictionSpec
        [{ state := some "A", State := some "B", district := some "D",
           month := some 1, year := some 2024 }] "B" "D" 1 2024 = none := by
  decide

/-- C5 (amended): a record using only the capitalized spellings is matched
and indexed identically to one using only the lowercase spellings; the
index builder does prefer the lowercase state and district when both
spellings are truthy; but the single-record lookup accepts a record
whenever either spelling of a field equals the selected value, with no
preference between the spellings. -/
theorem claim_C5 :
    (∀ (s d : String) (mo yr : Int) (state district : String)
        (month year : Int),
      matchesSelection state district month year
          { state := some s, district := some d, month := some mo,
            year := some yr } =
        matchesSelection state district month year
          { State := some s, District := some d, Month := some mo,
            Year := some yr }) ∧
    (∀ ts : List (String × String × Int × Int),
      populateStateDistrictMap (ts.map fun t =>
          { state := some t.1, district := some t.2.1, month := some t.2.2.1,
            year := some t.2.2.2 }) =
        populateStateDistrictMap (ts.map fun t =>
          { State := some t.1, District := some t.2.1, Month := some t.2.2.1,
            Year := some t.2.2.2 })) ∧
    (∀ (s s2 d : String) (o : Option String), s ≠ "" → d ≠ "" →
      populateStateDistrictMap
          [{ state := some s, State := some s2, district := some d,
             District := o }] = [(s, [d])]) ∧
    (∀ (s1 s2 d : String) (mo yr : Int),
      matchesSelection s2 d mo yr
          { state := some s1, State := some s2, district := some d,
            month := some mo, year := some yr } = true) := by
  have haddeq : ∀ (m : List (String × List String))
      (s d : String) (mo yr : Int),
      addRecord m
          { state := some s, district := some d, month := some mo,
            year := some yr } =
        addRecord m
          { State := some s, District := some d, Month := some mo,
            Year := some yr } := by
    intro m s d mo yr
    by_cases hs : s = "" <;> by_cases hd : d = "" <;>
      simp [addRecord, jsOr, hs, hd]
  refine ⟨fun s d mo yr state district month year => ?_, fun ts => ?_,
    fun s s2 d o hs hd => ?_, fun s1 s2 d mo yr => ?_⟩
  · simp [matchesSelection, Bool.beq_eq_decide_eq, Bool.or_comm]
  · unfold populateStateDistrictMap
    rw [List.foldl_map, List.foldl_map]
    have hfold : ∀ (us : List (String × String × Int × Int))
        (init : List (String × List String)),
        us.foldl (fun m t => addRecord m
            { state := some t.1, district := some t.2.1,
              month := some t.2.2.1, year := some t.2.2.2 }) init =
          us.foldl (fun m t => addRecord m
            { State := some t.1, District := some t.2.1,
              Month := some t.2.2.1, Year := some t.2.2.2 }) init := by
      intro us
      induction us with
      | nil => intro init; rfl
      | cons t ts2 ih =>
        intro init
        rw [List.foldl_cons, List.foldl_cons,
          haddeq init t.1 t.2.1 t.2.2.1 t.2.2.2]
        exact ih _
    rw [hfold]
  · simp [populateStateDistrictMap, addRecord, jsOr, mapInsertDistrict,
      hs, hd]
  · simp [matchesSelection, Bool.beq_eq_decide_eq]

/-- C5 witness: the prefer-lowercase index conjunct of `claim_C5`
instantiated at a record whose two state spellings disagree. -/
theorem claim_C5_witness :
    populateStateDistrictMap
        [{ state := some "Bihar", State := some "Other",
           district := some "Patna", District := none }] =
      [("Bihar", ["Patna"])] :=
  claim_C5.2.2.1 "Bihar" "Other" "Patna" none (by decide) (by decide)

/-- C6 (counterexample): with suitable random draws, the synthesized
placeholder for a selection absent from the dataset displays exactly the
same values as a genuine record carrying category "No Drought", severity
2, rainfall 100, temperature 25 and confidence 0.8: the placeholder
carries no marker and is presented through the very same display path as
real data. -/
theorem claim_C6_counterexample :
    displayValues
        (getPredictionRecord [] "Bihar" "Patna" 1 2024
          0 (2/5) (1/2) (1/3) (2/5)) =
      displayValues
        { state := some "Bihar", district := some "Patna", month := some 1,
          year := some 2024, drought_category := some "No Drought",
          drought_severity := some 2, rainfall_prediction := some 100,
          temperature_avg := some 25, confidence := some (4/5) } ∧
    getPredictionRecord [] "Bihar" "Patna" 1 2024 0 (2/5) (1/2) (1/3) (2/5) ≠
      { state := some "Bihar", district := some "Patna", month := some 1,
        year := some 2024, drought_category := some "No Drought",
        drought_severity := some 2, rainfall_prediction := some 100,
        temperature_avg := some 25, confidence := some (4/5) } := by
  constructor
  · norm_num [getPredictionRecord, findPrediction, generateSamplePrediction,
      displayValues, droughtCategories, jsStrOr, jsNumOr]
  · norm_num [getPredictionRecord, findPrediction, generateSamplePrediction,
      droughtCategories]
    decide

/-- C6 (amended): whenever the lookup finds no matching record, the
caller receives the synthesized placeholder exactly as
`generateSamplePrediction` built it: a plain record with no marker or
flag of any kind, whose only difference from a genuine record is the
incidental absence of the state and district fields, which the display
path never consults. -/
theorem claim_C6 :
    ∀ (records : List RawRecord) (state district : String)
      (month year : Int) (r1 r2 r3 r4 r5 : ℚ),
      findPrediction records state district month year = none →
      getPredictionRecord records state district month year r1 r2 r3 r4 r5 =
        generateSamplePrediction r1 r2 r3 r4 r5 ∧
      (generateSamplePrediction r1 r2 r3 r4 r5).state = none ∧
      (generateSamplePrediction r1 r2 r3 r4 r5).State = none ∧
      (generateSamplePrediction r1 r2 r3 r4 r5).district = none ∧
      (generateSamplePrediction r1 r2 r3 r4 r5).District = none := by
  intro records state district month year r1 r2 r3 r4 r5 h
  exact ⟨by simp [getPredictionRecord, h], rfl, rfl, rfl, rfl⟩

/-- C6 witness: `claim_C6` instantiated at the empty dataset, where the
lookup certainly fails. -/
theorem claim_C6_witness :
    getPredictionRecord [] "A" "B" 1 2024 0 0 0 0 0 =
      generateSamplePrediction 0 0 0 0 0 ∧
    (generateSamplePrediction (0:ℚ) 0 0 0 0).state = none ∧
    (generateSamplePrediction (0:ℚ) 0 0 0 0).State = none ∧
    (generateSamplePrediction (0:ℚ) 0 0 0 0).district = none ∧
    (generateSamplePrediction (0:ℚ) 0 0 0 0).District = none :=
  claim_C6 [] "A" "B" 1 2024 0 0 0 0 0 rfl

/-- C10 witness: concrete instances of the hypotheses of `claim_C10`:
severity -100 is classified "No Drought", and "Severe Drought" (a member
of the five-string list) is a key of the color table. -/
theorem claim_C10_witness :
    severityToCategory (-100) = "No Drought" ∧
    (assocFind "Severe Drought" DROUGHT_COLORS).isSome :=
  ⟨claim_C10.2.2.2 (-100) (by norm_num),
   claim_C10.2.1 "Severe Drought" (by decide)⟩

theorem extendEntry_none_cons (d : String) (l : List String) :
    extendEntry none (d :: l) = some (l.foldl pushUnique [d]) :=
  extendEntry_some_eq [d] l

/-- C7: for every loaded record sequence, the derived period list consists
of the distinct (year, month) pairs whose year lies in the inclusive range
2024–2026 (no duplicates, membership exactly those pairs), sorted
ascending by the key `year*12 + month`; concretely the unordered periods
(2024,9), (2024,10), (2024,1) sort chronologically to
[(2024,1), (2024,9), (2024,10)]. -/
theorem claim_C7 :
    (∀ rs : List PredictionRecord,
      (mapPeriods rs).Nodup ∧
      (mapPeriods rs).Pairwise
        (fun a b => a.1 * 12 + a.2 ≤ b.1 * 12 + b.2) ∧
      (∀ ym : Int × Int, ym ∈ mapPeriods rs ↔
        ∃ p ∈ rs, p.year = ym.1 ∧ p.month = ym.2 ∧
          2024 ≤ ym.1 ∧ ym.1 ≤ 2026)) ∧
    mapPeriods [⟨"A", 2024, 9, 0⟩, ⟨"A", 2024, 10, 0⟩, ⟨"A", 2024, 1, 0⟩] =
      [(2024, 1), (2024, 9), (2024, 10)] := by
  refine ⟨fun rs => ⟨?_, ?_, fun ym => ?_⟩, by decide⟩
  · exact (nodup_collectUnique _ _).perm
      (List.perm_insertionSort periodLE (ymList rs)).symm
  · exact List.sorted_insertionSort periodLE (ymList rs)
  · have hm : ym ∈ mapPeriods rs ↔ ym ∈ ymList rs :=
      (List.perm_insertionSort periodLE (ymList rs)).mem_iff
    rw [hm]
    have hm2 : ym ∈ ymList rs ↔ ∃ p ∈ rs,
        (if 2024 ≤ p.year ∧ p.year ≤ 2026 then some (p.year, p.month)
          else none) = some ym :=
      mem_collectUnique _ rs ym
    rw [hm2]
    constructor
    · rintro ⟨p, hp, hif⟩
      by_cases hc : 2024 ≤ p.year ∧ p.year ≤ 2026
      · rw [if_pos hc] at hif
        injection hif with h
        exact ⟨p, hp, by rw [← h], by rw [← h], by rw [← h]; exact hc.1,
          by rw [← h]; exact hc.2⟩
      · rw [if_neg hc] at hif
        cases hif
    · rintro ⟨p, hp, h1, h2, h3, h4⟩
      refine ⟨p, hp, ?_⟩
      rw [if_pos ⟨by rw [h1]; exact h3, by rw [h1]; exact h4⟩, h1, h2]

/-- C8: for every record sequence, the state-district index maps each
state to the set of distinct districts observed for it, sorted
lexicographically and without duplicates; a state for which no district
was observed carries no entry, so records with a missing (or falsy)
district contribute nothing and never fail. -/
theorem claim_C8 :
    ∀ (records : List RawRecord) (s : String),
      match assocFind s (populateStateDistrictMap records) with
      | none => observedDistricts records s = []
      | some ds =>
          ds.Pairwise (· ≤ ·) ∧ ds.Nodup ∧
          (∀ d, d ∈ ds ↔ d ∈ observedDistricts records s) := by
  intro records s
  have h1 : assocFind s (populateStateDistrictMap records) =
      (extendEntry none (observedDistricts records s)).map
        (List.insertionSort (· ≤ ·)) := by
    unfold populateStateDistrictMap
    rw [assocFind_map_sortEntry, assocFind_foldl_addRecord]
    rfl
  rcases hobs : observedDistricts records s with _ | ⟨d, l⟩
  · rw [hobs] at h1
    rw [show assocFind s (populateStateDistrictMap records) = none from h1]
  · rw [hobs, extendEntry_none_cons, Option.map_some'] at h1
    rw [h1]
    refine ⟨List.sorted_insertionSort _ _, ?_, fun d2 => ?_⟩
    · exact (nodup_foldl_pushUnique l [d] (List.nodup_singleton d)).perm
        (List.perm_insertionSort _ _).symm
    · have hmem : d2 ∈ List.insertionSort (· ≤ ·) (l.foldl pushUnique [d]) ↔
          d2 ∈ l.foldl pushUnique [d] :=
        (List.perm_insertionSort _ _).mem_iff
      rw [hmem, mem_foldl_pushUnique]
      simp [List.mem_cons]

/-- C9: the derived outputs are order-independent: permuting the record
sequence leaves the sorted state list unchanged; leaves the
chronologically sorted period list unchanged for data-model-conforming
records (months 1–12, for which the keys `year*12+month` of distinct
pairs are distinct); and leaves the state-district index extensionally
unchanged: every key lookup agrees and the sorted key list agrees. -/
theorem claim_C9 :
    (∀ rs rs2 : List PredictionRecord, rs.Perm rs2 →
      sortedStates rs = sortedStates rs2 ∧
      ((∀ r ∈ rs, 1 ≤ r.month ∧ r.month ≤ 12) →
        mapPeriods rs = mapPeriods rs2)) ∧
    (∀ qs qs2 : List RawRecord, qs.Perm qs2 →
      (∀ s, assocFind s (populateStateDistrictMap qs) =
        assocFind s (populateStateDistrictMap qs2)) ∧
      sortedMapKeys (populateStateDistrictMap qs) =
        sortedMapKeys (populateStateDistrictMap qs2)) := by
  constructor
  · intro rs rs2 hp
    constructor
    · have h1 := nodup_collectUnique
        (fun p : PredictionRecord => some p.state) rs
      have h2 := nodup_collectUnique
        (fun p : PredictionRecord => some p.state) rs2
      have hmem : ∀ x, x ∈ statesWithData rs ↔ x ∈ statesWithData rs2 := by
        intro x
        unfold statesWithData
        rw [mem_collectUnique, mem_collectUnique]
        constructor
        · rintro ⟨p, hpm, hx⟩
          exact ⟨p, hp.mem_iff.mp hpm, hx⟩
        · rintro ⟨p, hpm, hx⟩
          exact ⟨p, hp.mem_iff.mpr hpm, hx⟩
      have hpermS : (statesWithData rs).Perm (statesWithData rs2) :=
        (List.perm_ext_iff_of_nodup h1 h2).mpr hmem
      exact List.eq_of_perm_of_sorted
        ((List.perm_insertionSort _ _).trans
          (hpermS.trans (List.perm_insertionSort _ _).symm))
        (List.sorted_insertionSort _ _) (List.sorted_insertionSort _ _)
    · intro hm
      have h1 := nodup_collectUnique
        (fun p : PredictionRecord =>
          if 2024 ≤ p.year ∧ p.year ≤ 2026 then some (p.year, p.month)
          else none) rs
      have h2 := nodup_collectUnique
        (fun p : PredictionRecord =>
          if 2024 ≤ p.year ∧ p.year ≤ 2026 then some (p.year, p.month)
          else none) rs2
      have hmem : ∀ x, x ∈ ymList rs ↔ x ∈ ymList rs2 := by
        intro x
        unfold ymList
        rw [mem_collectUnique, mem_collectUnique]
        constructor
        · rintro ⟨p, hpm, hx⟩
          exact ⟨p, hp.mem_iff.mp hpm, hx⟩
        · rintro ⟨p, hpm, hx⟩
          exact ⟨p, hp.mem_iff.mpr hpm, hx⟩
      have hpermY : (ymList rs).Perm (ymList rs2) :=
        (List.perm_ext_iff_of_nodup h1 h2).mpr hmem
      have hbound : ∀ x ∈ ymList rs, 1 ≤ x.2 ∧ x.2 ≤ 12 := by
        intro x hx
        obtain ⟨p, hpm, hif⟩ := (mem_collectUnique _ rs x).mp hx
        by_cases hc : 2024 ≤ p.year ∧ p.year ≤ 2026
        · rw [if_pos hc] at hif
          injection hif with h
          rw [← h]
          exact hm p hpm
        · rw [if_neg hc] at hif
          cases hif
      have hboundAll : ∀ x ∈ mapPeriods rs, 1 ≤ x.2 ∧ x.2 ≤ 12 := by
        intro x hx
        exact hbound x
          ((List.perm_insertionSort periodLE (ymList rs)).mem_iff.mp hx)
      have hboundAll2 : ∀ x ∈ mapPeriods rs2, 1 ≤ x.2 ∧ x.2 ≤ 12 := by
        intro x hx
        exact hbound x (hpermY.mem_iff.mpr
          ((List.perm_insertionSort periodLE (ymList rs2)).mem_iff.mp hx))
      have hstrict : ∀ l : List (Int × Int), l.Nodup → l.Sorted periodLE →
          (∀ x ∈ l, 1 ≤ x.2 ∧ x.2 ≤ 12) → l.Sorted periodLT := by
        intro l hnd hs hb
        refine (hs.and hnd).imp_of_mem ?_
        intro a b ha hb2 hab
        obtain ⟨hle, hne⟩ := hab
        have hka := hb a ha
        have hkb := hb b hb2
        refine lt_of_le_of_ne hle ?_
        intro hkey
        apply hne
        have hkey2 : a.1 * 12 + a.2 = b.1 * 12 + b.2 := hkey
        have hy : a.1 = b.1 ∧ a.2 = b.2 := by omega
        exact Prod.ext hy.1 hy.2
      have hs1 : (mapPeriods rs).Sorted periodLT :=
        hstrict _
          ((nodup_collectUnique _ _).perm
            (List.perm_insertionSort periodLE (ymList rs)).symm)
          (List.sorted_insertionSort periodLE (ymList rs)) hboundAll
      have hs2 : (mapPeriods rs2).Sorted periodLT :=
        hstrict _
          ((nodup_collectUnique _ _).perm
            (List.perm_insertionSort periodLE (ymList rs2)).symm)
          (List.sorted_insertionSort periodLE (ymList rs2)) hboundAll2
      exact List.eq_of_perm_of_sorted
        ((List.perm_insertionSort _ _).trans
          (hpermY.trans (List.perm_insertionSort _ _).symm)) hs1 hs2
  · intro qs qs2 hp
    have hobs : ∀ s, (observedDistricts qs s).Perm (observedDistricts qs2 s) :=
      fun s => hp.filterMap _
    have hfind : ∀ s, assocFind s (populateStateDistrictMap qs) =
        assocFind s (populateStateDistrictMap qs2) := by
      intro s
      have e1 : assocFind s (populateStateDistrictMap qs) =
          (extendEntry none (observedDistricts qs s)).map
            (List.insertionSort (· ≤ ·)) := by
        unfold populateStateDistrictMap
        rw [assocFind_map_sortEntry, assocFind_foldl_addRecord]
        rfl
      have e2 : assocFind s (populateStateDistrictMap qs2) =
          (extendEntry none (observedDistricts qs2 s)).map
            (List.insertionSort (· ≤ ·)) := by
        unfold populateStateDistrictMap
        rw [assocFind_map_sortEntry, assocFind_foldl_addRecord]
        rfl
      rw [e1, e2]
      rcases hc1 : observedDistricts qs s with _ | ⟨d, l⟩
      · have hc2 : observedDistricts qs2 s = [] := by
          have h := hobs s
          rw [hc1] at h
          exact h.symm.eq_nil
        rw [hc2]
      · rcases hc2 : observedDistricts qs2 s with _ | ⟨d2, l2⟩
        · exfalso
          have h := hobs s
          rw [hc1, hc2] at h
          simpa using h.eq_nil
        · have hpermO : (d :: l).Perm (d2 :: l2) := by
            have h := hobs s
            rwa [hc1, hc2] at h
          rw [extendEntry_none_cons, extendEntry_none_cons,
            Option.map_some', Option.map_some']
          have hn1 : (l.foldl pushUnique [d]).Nodup :=
            nodup_foldl_pushUnique _ _ (List.nodup_singleton d)
          have hn2 : (l2.foldl pushUnique [d2]).Nodup :=
            nodup_foldl_pushUnique _ _ (List.nodup_singleton d2)
          have hmm : ∀ x, x ∈ l.foldl pushUnique [d] ↔
              x ∈ l2.foldl pushUnique [d2] := by
            intro x
            rw [mem_foldl_pushUnique, mem_foldl_pushUnique]
            have hx := hpermO.mem_iff (a := x)
            simp only [List.mem_cons, List.mem_singleton] at hx ⊢
            tauto
          have hpb : (l.foldl pushUnique [d]).Perm
              (l2.foldl pushUnique [d2]) :=
            (List.perm_ext_iff_of_nodup hn1 hn2).mpr hmm
          congr 1
          exact List.eq_of_perm_of_sorted
            ((List.perm_insertionSort _ _).trans
              (hpb.trans (List.perm_insertionSort _ _).symm))
            (List.sorted_insertionSort _ _) (List.sorted_insertionSort _ _)
    refine ⟨hfind, ?_⟩
    have hk1 : (mapKeys (populateStateDistrictMap qs)).Nodup := by
      unfold populateStateDistrictMap
      rw [mapKeys_map_sortEntry]
      exact nodup_mapKeys_foldl _ _ (by simp [mapKeys])
    have hk2 : (mapKeys (populateStateDistrictMap qs2)).Nodup := by
      unfold populateStateDistrictMap
      rw [mapKeys_map_sortEntry]
      exact nodup_mapKeys_foldl _ _ (by simp [mapKeys])
    have hmemk : ∀ x, x ∈ mapKeys (populateStateDistrictMap qs) ↔
        x ∈ mapKeys (populateStateDistrictMap qs2) := by
      intro x
      rw [mem_mapKeys_iff_assocFind, mem_mapKeys_iff_assocFind, hfind x]
    have hpk : (mapKeys (populateStateDistrictMap qs)).Perm
        (mapKeys (populateStateDistrictMap qs2)) :=
      (List.perm_ext_iff_of_nodup hk1 hk2).mpr hmemk
    exact List.eq_of_perm_of_sorted
      ((List.perm_insertionSort _ _).trans
        (hpk.trans (List.perm_insertionSort _ _).symm))
      (List.sorted_insertionSort _ _) (List.sorted_insertionSort _ _)

/-- C9 witness: `claim_C9` instantiated at two concrete two-element
record sequences and their swaps. -/
theorem claim_C9_witness :
    (sortedStates [⟨"B", 2024, 2, 0⟩, ⟨"A", 2024, 1, 0⟩] =
      sortedStates [⟨"A", 2024, 1, 0⟩, ⟨"B", 2024, 2, 0⟩]) ∧
    (mapPeriods [⟨"B", 2024, 2, 0⟩, ⟨"A", 2024, 1, 0⟩] =
      mapPeriods [⟨"A", 2024, 1, 0⟩, ⟨"B", 2024, 2, 0⟩]) ∧
    (assocFind "S" (populateStateDistrictMap
        [{ state := some "S", district := some "D1" },
          { state := some "S", district := some "D2" }]) =
      assocFind "S" (populateStateDistrictMap
        [{ state := some "S", district := some "D2" },
          { state := some "S", district := some "D1" }])) ∧
    sortedMapKeys (populateStateDistrictMap
        [{ state := some "S", district := some "D1" },
          { state := some "S", district := some "D2" }]) =
      sortedMapKeys (populateStateDistrictMap
        [{ state := some "S", district := some "D2" },
          { state := some "S", district := some "D1" }]) := by
  have hp1 : List.Perm
      [(⟨"B", 2024, 2, 0⟩ : PredictionRecord), ⟨"A", 2024, 1, 0⟩]
      [⟨"A", 2024, 1, 0⟩, ⟨"B", 2024, 2, 0⟩] := by decide
  have hp2 : List.Perm
      [({ state := some "S", district := some "D1" } : RawRecord),
        { state := some "S", district := some "D2" }]
      [{ state := some "S", district := some "D2" },
        { state := some "S", district := some "D1" }] := by decide
  exact ⟨(claim_C9.1 _ _ hp1).1, (claim_C9.1 _ _ hp1).2 (by decide),
    (claim_C9.2 _ _ hp2).1 "S", (claim_C9.2 _ _ hp2).2⟩
